import Mathlib

/-
Verification of the AxiMicronN25Q register map
(src/python/surf/devices/micron/_AxiMicronN25Q.py).

The source file is purely declarative: it registers four scalar remote
variables (Test, Addr32BitMode, Addr, Cmd) and one 64-element Data array
on a framework-provided device base class.  The RegisterMap machinery the
file instantiates (descriptor records, array expansion, build-time
validation, lookup and enumeration) is owned by the surrounding framework
and is not part of this repository; it is modelled here from the spec.
The concrete descriptor constants are taken verbatim from the source.
-/

set_option maxRecDepth 8000

/-- Access mode of a register.  The source passes the string "RW" for every
variable; the data model has the three modes ReadOnly, WriteOnly, ReadWrite,
with "RW" denoting ReadWrite. -/
inductive Mode where
  | ReadOnly
  | WriteOnly
  | ReadWrite
  deriving DecidableEq

/-- Interpretation of the raw bits.  The source only ever uses pr.UInt. -/
inductive BaseType where
  | UInt
  deriving DecidableEq

/-- One named register: name, documentation string, byte offset, width in
bits, starting bit position, base type, access mode and the advisory
hidden flag, exactly the keyword arguments of pr.RemoteVariable used by
the source. -/
structure RegisterDescriptor where
  name : String
  description : String
  offset : Nat
  bitSize : Nat
  bitOffset : Nat
  base : BaseType
  mode : Mode
  hidden : Bool
  deriving DecidableEq

/-- A declaration as written in the source: either a single register
(self.add(pr.RemoteVariable(...))) or a repeated-register array
(self.addRemoteVariables(...)) with a name, a base offset,
a count and a byte stride. -/
inductive DescriptorSpec where
  | single (d : RegisterDescriptor)
  | array (name description : String) (offset bitSize bitOffset : Nat)
      (base : BaseType) (mode : Mode) (number stride : Nat) (hidden : Bool)
  deriving DecidableEq

/-- Modelled from the spec: the array expansion algorithm of the framework
(addRemoteVariables is not in src/).  For an array descriptor with number
elements and stride bytes it produces elements at offset + i*stride for i
in [0, number), each inheriting width, mode, hidden flag and base type,
named by appending the index to the prefix; expansion order is ascending
index. -/
def expandSpec : DescriptorSpec → List RegisterDescriptor
  | .single d => [d]
  | .array nm descr off bs bo b m number stride hid =>
      (List.range number).map fun i =>
        { name := nm ++ toString i
          description := descr
          offset := off + i * stride
          bitSize := bs
          bitOffset := bo
          base := b
          mode := m
          hidden := hid }

/-- The full expanded descriptor sequence of a declaration list, arrays
expanded in place at their declaration point. -/
def expandAll (specs : List DescriptorSpec) : List RegisterDescriptor :=
  specs.flatMap expandSpec

deriving instance DecidableEq for Except

/-- Construction-time validation failures of the RegisterMap contract. -/
inductive MapError where
  | DuplicateNameError
  | AddressConflictError
  | InvalidFieldError
  deriving DecidableEq

/-- Lookup failure. -/
inductive FindError where
  | NotFoundError
  deriving DecidableEq

/-- Field-geometry validity of one descriptor: bitSize > 0 and
bitOffset + bitSize <= 32 (word-aligned access assumption). -/
def validField (d : RegisterDescriptor) : Prop :=
  0 < d.bitSize ∧ d.bitOffset + d.bitSize ≤ 32

instance (d : RegisterDescriptor) : Decidable (validField d) :=
  decidable_of_iff (0 < d.bitSize ∧ d.bitOffset + d.bitSize ≤ 32) Iff.rfl

/-- Modelled from the spec: the build-time construction contract of
RegisterMap (the framework device base class is not in src/).  It expands
the declarations and validates, in the order the spec lists the checks:
name uniqueness across the full expanded set (DuplicateNameError), no two
expanded entries at the same offset (AddressConflictError), and field
geometry (InvalidFieldError); on success it returns the expanded
descriptor list in declaration order. -/
def buildMap (specs : List DescriptorSpec) :
    Except MapError (List RegisterDescriptor) :=
  let ds := expandAll specs
  if ¬ (ds.map RegisterDescriptor.name).Nodup then .error .DuplicateNameError
  else if ¬ (ds.map RegisterDescriptor.offset).Nodup then .error .AddressConflictError
  else if ¬ (∀ d ∈ ds, validField d) then .error .InvalidFieldError
  else .ok ds

/-- Modelled from the spec: the lookup operation of RegisterMap.
find(name) returns the descriptor declared under that name and fails with
NotFoundError if no such name exists. -/
def find (n : String) (ds : List RegisterDescriptor) :
    Except FindError RegisterDescriptor :=
  match ds.find? (fun d => d.name == n) with
  | some d => .ok d
  | none => .error .NotFoundError

/-- Normalize the advisory hidden flag of a descriptor (used to state that
hidden has no functional effect). -/
def eraseHidden (d : RegisterDescriptor) : RegisterDescriptor :=
  { d with hidden := false }

/-- Normalize the advisory hidden flag of a declaration. -/
def eraseHiddenSpec : DescriptorSpec → DescriptorSpec
  | .single d => .single (eraseHidden d)
  | .array nm descr off bs bo b m number stride _ =>
      .array nm descr off bs bo b m number stride false

/-- Number of bytes a descriptor occupies: ceil((bitOffset + bitSize)/8). -/
def byteSpan (d : RegisterDescriptor) : Nat :=
  (d.bitOffset + d.bitSize + 7) / 8

/-- The Data array declaration of the source: offset 0x200, bitSize 32,
bitOffset 0, base UInt, mode RW, number 64, stride 4, hidden. -/
def dataArraySpec : DescriptorSpec :=
  .array "Data" "Data Register Array" 0x200 32 0x00 .UInt .ReadWrite 64 4 true

/-- The declaration sequence of AxiMicronN25Q.__init__, in source order:
Test, Addr32BitMode, Addr, Cmd, then the Data array. -/
def axiMicronN25QSpecs : List DescriptorSpec :=
  [ .single
      { name := "Test"
        description := "Scratch Pad tester register"
        offset := 0x00
        bitSize := 32
        bitOffset := 0x00
        base := .UInt
        mode := .ReadWrite
        hidden := false },
    .single
      { name := "Addr32BitMode"
        description := "Enable 32-bit PROM mode"
        offset := 0x04
        bitSize := 1
        bitOffset := 0x00
        base := .UInt
        mode := .ReadWrite
        hidden := true },
    .single
      { name := "Addr"
        description := "Address Register"
        offset := 0x08
        bitSize := 32
        bitOffset := 0x00
        base := .UInt
        mode := .ReadWrite
        hidden := true },
    .single
      { name := "Cmd"
        description := "Command Register"
        offset := 0x0C
        bitSize := 32
        bitOffset := 0x00
        base := .UInt
        mode := .ReadWrite
        hidden := true },
    dataArraySpec ]

/-- The expanded register list of the AxiMicronN25Q instance. -/
def axiMicronN25QRegisters : List RegisterDescriptor :=
  expandAll axiMicronN25QSpecs

/-- C1: the register map constructed by the initializer contains exactly
the registers of the layout table and no others: Test at 0x00 with
bitSize 32 and mode ReadWrite, Addr32BitMode at 0x04 with bitSize 1,
Addr at 0x08 with bitSize 32, Cmd at 0x0C with bitSize 32, all ReadWrite,
and 64 Data elements at 0x200 + 4*i for i in [0, 64), each 32 bits
ReadWrite. -/
theorem register_layout_exact :
    buildMap axiMicronN25QSpecs = .ok axiMicronN25QRegisters ∧
    axiMicronN25QRegisters.map (fun d => (d.name, d.offset, d.bitSize, d.mode)) =
      [("Test", 0x00, 32, Mode.ReadWrite),
       ("Addr32BitMode", 0x04, 1, Mode.ReadWrite),
       ("Addr", 0x08, 32, Mode.ReadWrite),
       ("Cmd", 0x0C, 32, Mode.ReadWrite)] ++
      (List.range 64).map (fun i => ("Data" ++ toString i, 0x200 + 4 * i, 32, Mode.ReadWrite)) :=
  ⟨by decide, by decide⟩

/-- C2: expanding the Data descriptor (number 64, stride 4, offset 0x200)
yields exactly 64 descriptors with offsets 0x200, 0x204, ...,
0x200 + 63*4, strictly increasing with no duplicates, each inheriting the
bitSize 32, mode ReadWrite, hidden flag true and base type UInt of the
array descriptor. -/
theorem data_array_expansion :
    (expandSpec dataArraySpec).length = 64 ∧
    (expandSpec dataArraySpec).map RegisterDescriptor.offset =
      (List.range 64).map (fun i => 0x200 + 4 * i) ∧
    List.Pairwise (· < ·) ((expandSpec dataArraySpec).map RegisterDescriptor.offset) ∧
    ((expandSpec dataArraySpec).map RegisterDescriptor.offset).Nodup ∧
    (expandSpec dataArraySpec).map
        (fun d => (d.bitSize, d.mode, d.hidden, d.base)) =
      List.replicate 64 (32, Mode.ReadWrite, true, BaseType.UInt) :=
  ⟨by decide, by decide, by decide, by decide, by decide⟩

/-- C3: in the map of this instance, find of Cmd returns a descriptor
with offset 0x0C, bitSize 32 and mode ReadWrite; the expanded array
element of index 5 is named by appending 5 to the prefix Data, and find
of that name returns offset 0x214 = 0x200 + 5*4 and bitSize 32. -/
theorem find_cmd_and_data5 :
    Except.map (fun d => (d.offset, d.bitSize, d.mode))
        (find "Cmd" axiMicronN25QRegisters) = .ok (0x0C, 32, Mode.ReadWrite) ∧
    (expandSpec dataArraySpec)[5]?.map RegisterDescriptor.name =
      some ("Data" ++ toString 5) ∧
    Except.map (fun d => (d.offset, d.bitSize))
        (find ("Data" ++ toString 5) axiMicronN25QRegisters) =
      .ok (0x200 + 5 * 4, 32) :=
  ⟨by decide, by decide, by decide⟩

/-- C5: enumeration of the map is the expanded declaration list itself, a
finite pure value, so repeated enumeration is identical and restartable;
its order equals declaration order with the array expanded in place in
ascending index order: Test, Addr32BitMode, Addr, Cmd, then the 64 Data
elements by ascending index. -/
theorem enumeration_declaration_order :
    axiMicronN25QRegisters = expandAll axiMicronN25QSpecs ∧
    axiMicronN25QRegisters.map RegisterDescriptor.name =
      ["Test", "Addr32BitMode", "Addr", "Cmd"] ++
        (List.range 64).map (fun i => "Data" ++ toString i) :=
  ⟨rfl, by decide⟩

/-- C6: no two expanded registers of this instance overlap: the byte
ranges from offset to offset + ceil((bitOffset + bitSize)/8) of any two
distinct expanded descriptors are disjoint; in particular the fixed
registers below 0x10 are disjoint from the Data region at 0x200 and
consecutive Data elements do not overlap. -/
theorem registers_no_overlap :
    axiMicronN25QRegisters.Pairwise
      (fun a b => a.offset + byteSpan a ≤ b.offset ∨
        b.offset + byteSpan b ≤ a.offset) := by
  decide

/-- C4: on any successfully constructed map, find of a declared name
returns a descriptor whose name field equals the queried name, and find
of an undeclared name fails with NotFoundError. -/
theorem find_correct (specs : List DescriptorSpec)
    (ds : List RegisterDescriptor) (_hok : buildMap specs = .ok ds)
    (n : String) :
    ((∃ d ∈ ds, d.name = n) →
      ∃ d, find n ds = .ok d ∧ d.name = n) ∧
    ((∀ d ∈ ds, d.name ≠ n) →
      find n ds = .error .NotFoundError) := by
  constructor
  · rintro ⟨d, hd, hdn⟩
    unfold find
    cases e : ds.find? (fun d => d.name == n) with
    | none =>
        have hne := List.find?_eq_none.mp e d hd
        simp [hdn] at hne
    | some d₀ =>
        have hp := List.find?_some e
        simp only [beq_iff_eq] at hp
        exact ⟨d₀, rfl, hp⟩
  · intro hall
    unfold find
    cases e : ds.find? (fun d => d.name == n) with
    | none => rfl
    | some d₀ =>
        have hp := List.find?_some e
        simp only [beq_iff_eq] at hp
        exact absurd hp (hall d₀ (List.mem_of_find?_eq_some e))

/-- Closed instantiation of find_correct at the Cmd register of the
AxiMicronN25Q map. -/
theorem find_correct_witness :
    ((∃ d ∈ axiMicronN25QRegisters, d.name = "Cmd") →
      ∃ d, find "Cmd" axiMicronN25QRegisters = .ok d ∧ d.name = "Cmd") ∧
    ((∀ d ∈ axiMicronN25QRegisters, d.name ≠ "Cmd") →
      find "Cmd" axiMicronN25QRegisters = .error .NotFoundError) :=
  find_correct axiMicronN25QSpecs axiMicronN25QRegisters (by decide) "Cmd"

/-- A declaration list with two expanded entries at the same offset but
distinct names, used to exercise the AddressConflictError branch. -/
def conflictSpecs : List DescriptorSpec :=
  [ .single
      { name := "A"
        description := "first"
        offset := 0x00
        bitSize := 32
        bitOffset := 0x00
        base := .UInt
        mode := .ReadWrite
        hidden := false },
    .single
      { name := "B"
        description := "second"
        offset := 0x00
        bitSize := 32
        bitOffset := 0x00
        base := .UInt
        mode := .ReadWrite
        hidden := false } ]

/-- A declaration list with an invalid field geometry (bitSize 0), used
to exercise the InvalidFieldError branch. -/
def invalidSpecs : List DescriptorSpec :=
  [ .single
      { name := "Bad"
        description := "zero width"
        offset := 0x00
        bitSize := 0
        bitOffset := 0x00
        base := .UInt
        mode := .ReadWrite
        hidden := false } ]

/-- C7: constructing a map whose expanded entries repeat an offset fails
with AddressConflictError (name uniqueness, checked first, holding), and
construction never reports AddressConflictError when all expanded
offsets are pairwise distinct; for this instance they are distinct and
construction succeeds. -/
theorem address_conflict_detected :
    (∀ specs : List DescriptorSpec,
      ((expandAll specs).map RegisterDescriptor.name).Nodup →
      ¬ ((expandAll specs).map RegisterDescriptor.offset).Nodup →
      buildMap specs = .error .AddressConflictError) ∧
    (∀ specs : List DescriptorSpec,
      ((expandAll specs).map RegisterDescriptor.offset).Nodup →
      buildMap specs ≠ .error .AddressConflictError) ∧
    buildMap axiMicronN25QSpecs = .ok axiMicronN25QRegisters := by
  refine ⟨?_, ?_, by decide⟩
  · intro specs hn hoff
    unfold buildMap
    rw [if_neg (not_not_intro hn), if_pos hoff]
  · intro specs hoffnd
    unfold buildMap
    dsimp only
    split_ifs <;> simp_all

/-- Closed instantiation of address_conflict_detected: the two-entry
conflicting map fails with AddressConflictError and the AxiMicronN25Q
map does not. -/
theorem address_conflict_detected_witness :
    buildMap conflictSpecs = .error .AddressConflictError ∧
    buildMap axiMicronN25QSpecs ≠ .error .AddressConflictError :=
  ⟨address_conflict_detected.1 conflictSpecs (by decide) (by decide),
   address_conflict_detected.2.1 axiMicronN25QSpecs (by decide)⟩

/-- C8: construction validates field geometry: when names and offsets are
unique (those checks come first) and some expanded descriptor has
bitSize = 0 or bitOffset + bitSize > 32, construction fails with
InvalidFieldError; every descriptor of this instance has bitSize > 0 and
bitOffset + bitSize <= 32, and constructing it does not raise
InvalidFieldError. -/
theorem invalid_field_detected :
    (∀ specs : List DescriptorSpec,
      ((expandAll specs).map RegisterDescriptor.name).Nodup →
      ((expandAll specs).map RegisterDescriptor.offset).Nodup →
      (∃ d ∈ expandAll specs, d.bitSize ≤ 0 ∨ 32 < d.bitOffset + d.bitSize) →
      buildMap specs = .error .InvalidFieldError) ∧
    axiMicronN25QRegisters.all
      (fun d => decide (0 < d.bitSize ∧ d.bitOffset + d.bitSize ≤ 32)) = true ∧
    buildMap axiMicronN25QSpecs ≠ .error .InvalidFieldError := by
  refine ⟨?_, by decide, by decide⟩
  intro specs hn hoff hbad
  have hnv : ¬ (∀ d ∈ expandAll specs, validField d) := by
    obtain ⟨d, hd, hgeom⟩ := hbad
    intro hv
    obtain ⟨h1, h2⟩ := hv d hd
    omega
  unfold buildMap
  rw [if_neg (not_not_intro hn), if_neg (not_not_intro hoff), if_pos hnv]

/-- Closed instantiation of invalid_field_detected: the zero-width map
fails with InvalidFieldError. -/
theorem invalid_field_detected_witness :
    buildMap invalidSpecs = .error .InvalidFieldError :=
  invalid_field_detected.1 invalidSpecs (by decide) (by decide)
    ⟨{ name := "Bad", description := "zero width", offset := 0x00,
       bitSize := 0, bitOffset := 0x00, base := .UInt,
       mode := .ReadWrite, hidden := false }, by decide, by decide⟩

lemma map_name_eraseHidden (ds : List RegisterDescriptor) :
    (ds.map eraseHidden).map RegisterDescriptor.name =
      ds.map RegisterDescriptor.name := by
  rw [List.map_map]
  rfl

lemma map_offset_eraseHidden (ds : List RegisterDescriptor) :
    (ds.map eraseHidden).map RegisterDescriptor.offset =
      ds.map RegisterDescriptor.offset := by
  rw [List.map_map]
  rfl

lemma validField_map_eraseHidden (ds : List RegisterDescriptor) :
    (∀ d ∈ ds.map eraseHidden, validField d) ↔ (∀ d ∈ ds, validField d) := by
  constructor
  · intro h d hd
    exact h (eraseHidden d) (List.mem_map_of_mem eraseHidden hd)
  · intro h e he
    obtain ⟨d, hd, rfl⟩ := List.mem_map.mp he
    exact h d hd

lemma expandSpec_eraseHidden (s : DescriptorSpec) :
    (expandSpec s).map eraseHidden = expandSpec (eraseHiddenSpec s) := by
  cases s with
  | single d => rfl
  | array nm descr off bs bo b m number stride hid =>
      simp only [expandSpec, eraseHiddenSpec, List.map_map]
      rfl

lemma expandAll_eraseHidden (specs : List DescriptorSpec) :
    (expandAll specs).map eraseHidden =
      expandAll (specs.map eraseHiddenSpec) := by
  induction specs with
  | nil => rfl
  | cons s rest ih =>
      simp only [expandAll, List.flatMap_cons, List.map_append, List.map_cons] at *
      rw [expandSpec_eraseHidden, ih]

lemma buildMap_eraseHidden_congr (specs₁ specs₂ : List DescriptorSpec)
    (h : specs₁.map eraseHiddenSpec = specs₂.map eraseHiddenSpec) :
    Except.map (List.map eraseHidden) (buildMap specs₁) =
      Except.map (List.map eraseHidden) (buildMap specs₂) := by
  have hE : (expandAll specs₁).map eraseHidden =
      (expandAll specs₂).map eraseHidden := by
    rw [expandAll_eraseHidden, expandAll_eraseHidden, h]
  have hname : (expandAll specs₁).map RegisterDescriptor.name =
      (expandAll specs₂).map RegisterDescriptor.name := by
    rw [← map_name_eraseHidden, hE, map_name_eraseHidden]
  have hoff : (expandAll specs₁).map RegisterDescriptor.offset =
      (expandAll specs₂).map RegisterDescriptor.offset := by
    rw [← map_offset_eraseHidden, hE, map_offset_eraseHidden]
  have hvalid : (∀ d ∈ expandAll specs₁, validField d) ↔
      (∀ d ∈ expandAll specs₂, validField d) := by
    rw [← validField_map_eraseHidden (expandAll specs₁),
      ← validField_map_eraseHidden (expandAll specs₂), hE]
  unfold buildMap
  dsimp only
  simp only [hname, hoff, hvalid]
  split_ifs <;> simp [Except.map, hE]

lemma find?_name_eraseHidden_congr (n : String)
    (ds₁ ds₂ : List RegisterDescriptor)
    (h : ds₁.map eraseHidden = ds₂.map eraseHidden) :
    (ds₁.find? (fun d => d.name == n)).map eraseHidden =
      (ds₂.find? (fun d => d.name == n)).map eraseHidden := by
  induction ds₁ generalizing ds₂ with
  | nil =>
      cases ds₂ with
      | nil => rfl
      | cons d₂ t₂ => simp at h
  | cons d₁ t₁ ih =>
      cases ds₂ with
      | nil => simp at h
      | cons d₂ t₂ =>
          simp only [List.map_cons, List.cons.injEq] at h
          obtain ⟨hd, ht⟩ := h
          have hnm : d₁.name = d₂.name := by
            have hc := congrArg RegisterDescriptor.name hd
            exact hc
          by_cases hb : d₂.name = n
          · rw [List.find?_cons_of_pos _ (by simp [hnm, hb]),
              List.find?_cons_of_pos _ (by simp [hb])]
            simp [hd]
          · rw [List.find?_cons_of_neg _ (by simp [hnm, hb]),
              List.find?_cons_of_neg _ (by simp [hb])]
            exact ih t₂ ht

lemma find_eraseHidden_congr (n : String)
    (ds₁ ds₂ : List RegisterDescriptor)
    (h : ds₁.map eraseHidden = ds₂.map eraseHidden) :
    Except.map eraseHidden (find n ds₁) =
      Except.map eraseHidden (find n ds₂) := by
  have hf := find?_name_eraseHidden_congr n ds₁ ds₂ h
  unfold find
  cases e₁ : ds₁.find? (fun d => d.name == n) with
  | none =>
      cases e₂ : ds₂.find? (fun d => d.name == n) with
      | none => rfl
      | some d₂ => rw [e₁, e₂] at hf; simp at hf
  | some d₁ =>
      cases e₂ : ds₂.find? (fun d => d.name == n) with
      | none => rw [e₁, e₂] at hf; simp at hf
      | some d₂ =>
          rw [e₁, e₂] at hf
          simp only [Option.map_some'] at hf
          simp only [Except.map]
          exact congrArg Except.ok (Option.some.inj hf)

/-- C9: the hidden flag has no functional effect: for any two declaration
lists that agree up to hidden flags (any subset flipped), construction
agrees up to hidden flags, so it fails with the same error or yields maps
whose enumerations are equal descriptor by descriptor up to hidden, and
find of any name on the two maps agrees up to hidden, hence returns the
same name, offset, bitSize, bitOffset, base and mode, or fails the same
way. -/
theorem hidden_noninterference (specs₁ specs₂ : List DescriptorSpec)
    (h : specs₁.map eraseHiddenSpec = specs₂.map eraseHiddenSpec) :
    Except.map (List.map eraseHidden) (buildMap specs₁) =
      Except.map (List.map eraseHidden) (buildMap specs₂) ∧
    ∀ ds₁ ds₂, buildMap specs₁ = .ok ds₁ → buildMap specs₂ = .ok ds₂ →
      ∀ n, Except.map eraseHidden (find n ds₁) =
        Except.map eraseHidden (find n ds₂) := by
  refine ⟨buildMap_eraseHidden_congr specs₁ specs₂ h, ?_⟩
  intro ds₁ ds₂ h₁ h₂ n
  have hm := buildMap_eraseHidden_congr specs₁ specs₂ h
  rw [h₁, h₂] at hm
  simp only [Except.map] at hm
  exact find_eraseHidden_congr n ds₁ ds₂ (Except.ok.inj hm)

/-- Closed instantiation of hidden_noninterference: the AxiMicronN25Q
declarations against the same declarations with every hidden flag
cleared. -/
theorem hidden_noninterference_witness :
    Except.map (List.map eraseHidden) (buildMap axiMicronN25QSpecs) =
      Except.map (List.map eraseHidden)
        (buildMap (axiMicronN25QSpecs.map eraseHiddenSpec)) ∧
    ∀ ds₁ ds₂, buildMap axiMicronN25QSpecs = .ok ds₁ →
      buildMap (axiMicronN25QSpecs.map eraseHiddenSpec) = .ok ds₂ →
      ∀ n, Except.map eraseHidden (find n ds₁) =
        Except.map eraseHidden (find n ds₂) :=
  hidden_noninterference axiMicronN25QSpecs
    (axiMicronN25QSpecs.map eraseHiddenSpec) (by decide)

/-- C10: every descriptor of this instance, the four scalar registers and
the 64 expanded Data elements alike, has mode ReadWrite, bitOffset 0 and
unsigned-integer base type; ReadOnly, WriteOnly and non-zero bit offsets
never occur. -/
theorem all_readwrite_bitoffset_zero_uint :
    axiMicronN25QRegisters.length = 68 ∧
    axiMicronN25QRegisters.map (fun d => (d.mode, d.bitOffset, d.base)) =
      List.replicate 68 (Mode.ReadWrite, 0, BaseType.UInt) :=
  ⟨by decide, by decide⟩
